import Mathlib

/-!
Verification of the snapshot consolidation and atomic republish core of the
library-metrics ETL repository (src/load_public.py, src/main.py,
src/github_repo_etl.py, src/pypi_etl.py), as a shallow embedding.

Snapshot relations are embedded as lists of rows; the SQL of
`load_to_snowflake` (the `latest_github` / `latest_pypi` CTEs, the left
join and the ORDER BY) is embedded as executable list functions; the
publish step is embedded with the session semantics the code actually
runs under: the Snowflake connector's AUTOCOMMIT defaults to on, so each
statement commits as it executes, TRUNCATE TABLE is implicitly-committing
DDL that cannot be rolled back, a failed statement is undone at statement
level only, and `conn.rollback()` restores nothing.
-/

namespace ETL

/-- One row of the `github_repo_metrics` snapshot relation
(columns as in the INSERT of `github_repo_etl.insert_metrics`).
`collected_at` is the recency marker, modelled as a natural number. -/
structure GithubRow where
  name : String
  github_owner : String
  github_repository_name : String
  stars : Int
  forks : Int
  watchers : Int
  open_issues : Int
  language : Option String
  size_kb : Int
  created_at : Option String
  updated_at : Option String
  collected_at : Nat
  total_contributors : Option Int
  total_commits : Option Int
  commits_last_year : Option Int
  commits_last_month : Option Int
  deriving Repr, DecidableEq

/-- One row of the `pypi_download_stats` snapshot relation
(columns as in the INSERT of `pypi_etl.load_to_snowflake`).
Note: this relation has no collection-timestamp column at all. -/
structure PypiRow where
  name : String
  pypi_name : String
  total_downloads_alltime : Int
  downloads_last_month : Int
  downloads_last_year : Int
  deriving Repr, DecidableEq

/-- One row of the published `public.tech_metrics` table, columns in the
order of the INSERT column list of `load_public.load_to_snowflake`.
Registry-sourced columns are `Option` (NULL when the left join finds no
`latest_pypi` match). -/
structure TechRow where
  name : String
  github_owner : String
  github_repository_name : String
  pypi_name : Option String
  language : Option String
  stars : Int
  forks : Int
  watchers : Int
  open_issues : Int
  size_kb : Int
  created_at : Option String
  updated_at : Option String
  total_contributors : Option Int
  total_commits : Option Int
  total_downloads_alltime : Option Int
  commits_last_year : Option Int
  downloads_last_year : Option Int
  commits_last_month : Option Int
  downloads_last_month : Option Int
  deriving Repr, DecidableEq

/-- `MAX` of a SQL group, as the query's aggregate: `none` on an empty
group, otherwise the maximum value. -/
def sqlMax {α : Type} [LinearOrder α] : List α → Option α
  | [] => none
  | x :: xs => some (xs.foldl max x)

/-- The grouped subquery `SELECT name, MAX(collected_at) FROM
github_repo_metrics GROUP BY name`, looked up at one name: the maximal
`collected_at` among the rows of that name. -/
def max_collected_at (hist : List GithubRow) (n : String) : Option Nat :=
  sqlMax ((hist.filter (fun r => r.name = n)).map (fun r => r.collected_at))

/-- The `latest_github` CTE: `github_repo_metrics` rows inner-joined with
the per-name `MAX(collected_at)` subquery on equal name and equal
`collected_at`; i.e. the history rows whose `collected_at` attains their
name group's maximum. -/
def latest_github (hist : List GithubRow) : List GithubRow :=
  hist.filter (fun gm => max_collected_at hist gm.name = some gm.collected_at)

/-- The grouped subquery `SELECT name, MAX(downloads_last_year) FROM
pypi_download_stats GROUP BY name`, looked up at one name. -/
def max_downloads_last_year (hist : List PypiRow) (n : String) : Option Int :=
  sqlMax ((hist.filter (fun r => r.name = n)).map (fun r => r.downloads_last_year))

/-- The `latest_pypi` CTE: `pypi_download_stats` rows inner-joined with the
per-name `MAX(downloads_last_year)` subquery on equal name and equal
`downloads_last_year`. -/
def latest_pypi (hist : List PypiRow) : List PypiRow :=
  hist.filter (fun ps => max_downloads_last_year hist ps.name = some ps.downloads_last_year)

/-- The SELECT list of the final query: one output row built from a
`latest_github` row `g` and an optional matching `latest_pypi` row,
column for column as written in `load_public.load_to_snowflake`. -/
def selectRow (g : GithubRow) (p : Option PypiRow) : TechRow :=
  { name := g.name
    github_owner := g.github_owner
    github_repository_name := g.github_repository_name
    pypi_name := p.map (fun r => r.pypi_name)
    language := g.language
    stars := g.stars
    forks := g.forks
    watchers := g.watchers
    open_issues := g.open_issues
    size_kb := g.size_kb
    created_at := g.created_at
    updated_at := g.updated_at
    total_contributors := g.total_contributors
    total_commits := g.total_commits
    total_downloads_alltime := p.map (fun r => r.total_downloads_alltime)
    commits_last_year := g.commits_last_year
    downloads_last_year := p.map (fun r => r.downloads_last_year)
    commits_last_month := g.commits_last_month
    downloads_last_month := p.map (fun r => r.downloads_last_month) }

/-- The output rows one left-side row `g` contributes to the left outer
join: when no right row has its name, a single row padded with NULLs;
otherwise one row per matching right row. -/
def blockRows (ps : List PypiRow) (g : GithubRow) : List TechRow :=
  if (ps.filter (fun p => p.name = g.name)).isEmpty then [selectRow g none]
  else (ps.filter (fun p => p.name = g.name)).map (fun p => selectRow g (some p))

/-- `FROM latest_github g LEFT JOIN latest_pypi p ON g.name = p.name`:
each left row paired with every right row of equal name, or with NULLs
when no right row matches. -/
def leftJoin (gs : List GithubRow) (ps : List PypiRow) : List TechRow :=
  gs.flatMap (blockRows ps)

/-- Insert one output row into a name-sorted list, keeping it sorted
(stable: an equal name goes after the rows already present). -/
def insertByName (r : TechRow) : List TechRow → List TechRow
  | [] => [r]
  | x :: xs => if x.name ≤ r.name then x :: insertByName r xs else r :: x :: xs

/-- `ORDER BY g.name`: the join output sorted by library identity
ascending. -/
def orderByName (l : List TechRow) : List TechRow :=
  l.foldr insertByName []

/-- The full SELECT of `load_to_snowflake`: resolve both sides, left
join, order by name.  This is the row list the single INSERT statement
writes into `public.tech_metrics`. -/
def consolidate (github : List GithubRow) (pypi : List PypiRow) : List TechRow :=
  orderByName (leftJoin (latest_github github) (latest_pypi pypi))

/-- The warehouse state the pipeline touches: the two append-only
snapshot relations and the published table. -/
structure DB where
  github : List GithubRow
  pypi : List PypiRow
  published : List TechRow
  deriving Repr, DecidableEq

/-- Fault injection for `load_to_snowflake`: where, if anywhere, an
exception is raised during the try block. -/
inductive Fault where
  /-- No failure: truncate, insert and commit all succeed. -/
  | noFault : Fault
  /-- The TRUNCATE statement itself raises. -/
  | failTruncate : Fault
  /-- The INSERT..SELECT raises after writing the first `k` rows of its
  output (connectivity loss, malformed row, ...). -/
  | failInsertAfter (k : Nat) : Fault
  deriving Repr, DecidableEq

/-- `load_public.load_to_snowflake`: open a connection, then
`try: TRUNCATE; INSERT..SELECT; commit` with `except: rollback; raise`.

The code opens no transactional scope: `snowflake.connector.connect` is
called without `autocommit=False` and the session AUTOCOMMIT parameter
defaults to on, so every statement commits as soon as it succeeds, and in
Snowflake TRUNCATE TABLE is DDL that implicitly commits and cannot be
rolled back in any case.  Accordingly:
* on success the table durably holds the consolidated rows
  (`conn.commit()` is then a no-op);
* when the TRUNCATE itself raises, the failed statement is undone at
  statement level and the table keeps its pre-run rows; the
  `conn.rollback()` of the except block restores nothing further, and the
  error is re-raised;
* when the INSERT..SELECT raises after writing `k` rows, the TRUNCATE has
  already auto-committed and the failed INSERT statement is undone at
  statement level, so the published table is left empty; the
  `conn.rollback()` restores nothing, and the error is re-raised.

The result is the database after the run together with `true` when the
run succeeded and `false` when the exception was re-raised to the
caller. -/
def load_to_snowflake (f : Fault) (db : DB) : DB × Bool :=
  let rows := consolidate db.github db.pypi
  match f with
  | .noFault => ({ db with published := rows }, true)
  | .failTruncate => (db, false)
  | .failInsertAfter _ => ({ db with published := [] }, false)

/-- An ingestion phase outcome as seen by the orchestrator: either the
batch of rows the phase appends to its snapshot relation, or the
exception it raised. -/
def PhaseResult (α : Type) : Type := Except Unit α

/-- Phase 1 effect (`github_repo_etl.main` + append): on success the
batch is appended to `github_repo_metrics`; on an exception nothing is. -/
def runGithubPhase (r : PhaseResult (List GithubRow)) (db : DB) : DB × Bool :=
  match r with
  | .ok rows => ({ db with github := db.github ++ rows }, true)
  | .error _ => (db, false)

/-- Phase 2 effect (`pypi_etl.main` + append). -/
def runPypiPhase (r : PhaseResult (List PypiRow)) (db : DB) : DB × Bool :=
  match r with
  | .ok rows => ({ db with pypi := db.pypi ++ rows }, true)
  | .error _ => (db, false)

/-- `main.main`: run the three phases in sequence, each wrapped in the
try/except of its `run_*` helper so a failure is recorded as `False`
rather than aborting the orchestrator; then
`sys.exit(0 if overall_success else 1)` where `overall_success` is the
conjunction of the three results.  Returns the final database and the
process exit code. -/
def orchestrate (gh : PhaseResult (List GithubRow)) (py : PhaseResult (List PypiRow))
    (f : Fault) (db : DB) : DB × Nat :=
  let r1 := runGithubPhase gh db
  let r2 := runPypiPhase py r1.1
  let r3 := load_to_snowflake f r2.1
  (r3.1, if r1.2 && r2.2 && r3.2 then 0 else 1)

/-- One library entry of `config.json`. -/
structure Library where
  name : String
  github_owner : String
  github_repo : String
  deriving Repr, DecidableEq

/-- The repository-metadata response of
`GET /repos/{owner}/{repo}` as `get_repo_metrics` reads it. -/
structure RepoResponse where
  status_code : Nat
  stars : Int
  forks : Int
  watchers : Int
  open_issues : Int
  language : Option String
  size : Int
  created_at : Option String
  updated_at : Option String
  deriving Repr, DecidableEq

/-- The contributor-stats response: one `total` per contributor. -/
structure ContribResponse where
  status_code : Nat
  contributors : List Int
  deriving Repr, DecidableEq

/-- The commit-activity response: one `total` per week. -/
structure ActivityResponse where
  status_code : Nat
  weeks : List Int
  deriving Repr, DecidableEq

/-- The three HTTP responses `get_repo_metrics` issues for one library,
plus the clock value used for `collected_at`. -/
structure FetchEnv where
  repoResp : RepoResponse
  contribResp : ContribResponse
  activityResp : ActivityResponse
  now : Nat
  deriving Repr, DecidableEq

/-- `github_repo_etl.get_repo_metrics`: `None` when the initial
repository request is non-200; otherwise the metrics row, with the
contributor and commit-activity aggregates `None` when their own
requests are non-200. -/
def get_repo_metrics (lib : Library) (env : FetchEnv) : Option GithubRow :=
  if env.repoResp.status_code ≠ 200 then none
  else
    let recent_weeks :=
      if env.activityResp.weeks.length ≥ 4 then
        env.activityResp.weeks.drop (env.activityResp.weeks.length - 4)
      else env.activityResp.weeks
    some
      { name := lib.name
        github_owner := lib.github_owner
        github_repository_name := lib.github_repo
        stars := env.repoResp.stars
        forks := env.repoResp.forks
        watchers := env.repoResp.watchers
        open_issues := env.repoResp.open_issues
        language := env.repoResp.language
        size_kb := env.repoResp.size
        created_at := env.repoResp.created_at
        updated_at := env.repoResp.updated_at
        collected_at := env.now
        total_contributors :=
          if env.contribResp.status_code ≠ 200 then none
          else some env.contribResp.contributors.length
        total_commits :=
          if env.contribResp.status_code ≠ 200 then none
          else some (env.contribResp.contributors.foldl (· + ·) 0)
        commits_last_year :=
          if env.activityResp.status_code ≠ 200 then none
          else some (env.activityResp.weeks.foldl (· + ·) 0)
        commits_last_month :=
          if env.activityResp.status_code ≠ 200 then none
          else some (recent_weeks.foldl (· + ·) 0) }

/-- The collection loop of `github_repo_etl.main`: fetch each configured
library and keep only the truthy results (`if metrics:
all_metrics.append(metrics)`). -/
def githubEtlBatch (libs : List (Library × FetchEnv)) : List GithubRow :=
  libs.filterMap (fun le => get_repo_metrics le.1 le.2)

/-! ### Facts about the SQL MAX aggregate -/

theorem le_foldl_max {α : Type} [LinearOrder α] (xs : List α) (x : α) :
    x ≤ xs.foldl max x := by
  induction xs generalizing x with
  | nil => exact le_refl x
  | cons y ys ih => exact le_trans (le_max_left x y) (ih (max x y))

theorem le_foldl_max_of_mem {α : Type} [LinearOrder α] {a : α} {xs : List α} (x : α)
    (h : a ∈ xs) : a ≤ xs.foldl max x := by
  induction xs generalizing x with
  | nil => cases h
  | cons y ys ih =>
    rcases List.mem_cons.mp h with rfl | h'
    · exact le_trans (le_max_right x a) (le_foldl_max ys (max x a))
    · exact ih (max x y) h'

theorem foldl_max_mem {α : Type} [LinearOrder α] (xs : List α) (x : α) :
    xs.foldl max x = x ∨ xs.foldl max x ∈ xs := by
  induction xs generalizing x with
  | nil => exact Or.inl rfl
  | cons y ys ih =>
    rw [List.foldl_cons]
    rcases ih (max x y) with h | h
    · rcases max_choice x y with hxy | hxy
      · exact Or.inl (h.trans hxy)
      · exact Or.inr (by rw [h, hxy]; exact List.mem_cons_self y ys)
    · exact Or.inr (List.mem_cons_of_mem y h)

theorem sqlMax_mem {α : Type} [LinearOrder α] {l : List α} {m : α}
    (h : sqlMax l = some m) : m ∈ l := by
  cases l with
  | nil => simp [sqlMax] at h
  | cons x xs =>
    have hm : xs.foldl max x = m := by simpa [sqlMax] using h
    rcases foldl_max_mem xs x with h' | h'
    · have hx : m = x := by rw [← hm, h']
      rw [hx]; exact List.mem_cons_self x xs
    · rw [← hm]; exact List.mem_cons_of_mem x h'

theorem le_sqlMax_of_mem {α : Type} [LinearOrder α] {l : List α} {a m : α}
    (ha : a ∈ l) (h : sqlMax l = some m) : a ≤ m := by
  cases l with
  | nil => cases ha
  | cons x xs =>
    have hm : xs.foldl max x = m := by simpa [sqlMax] using h
    rcases List.mem_cons.mp ha with rfl | ha'
    · exact hm ▸ le_foldl_max xs a
    · exact hm ▸ le_foldl_max_of_mem x ha'

theorem sqlMax_isSome_of_mem {α : Type} [LinearOrder α] {l : List α} {a : α}
    (ha : a ∈ l) : ∃ m, sqlMax l = some m := by
  cases l with
  | nil => cases ha
  | cons x xs => exact ⟨xs.foldl max x, rfl⟩

/-! ### C3: the GitHub-side Resolver selects the rows of maximal
`collected_at` -/

/-- C3. For every GitHub-side snapshot history and every library identity
present in it (witnessed by a row `g` of that identity): some row of that
identity is selected by `latest_github`; every selected row of that
identity is a history row whose `collected_at` is the maximum over all of
the identity's rows; and a row strictly older than another row of the
same identity is never selected (a newer snapshot supersedes an older
one). -/
theorem latest_github_selects_max (hist : List GithubRow) (g : GithubRow)
    (hg : g ∈ hist) :
    (∃ r ∈ latest_github hist, r.name = g.name) ∧
    (∀ r ∈ latest_github hist, r.name = g.name →
      r ∈ hist ∧ ∀ r' ∈ hist, r'.name = g.name → r'.collected_at ≤ r.collected_at) ∧
    (∀ r1 ∈ hist, ∀ r2 ∈ hist, r1.name = g.name → r2.name = g.name →
      r1.collected_at < r2.collected_at → r1 ∉ latest_github hist) := by
  have hmem : g.collected_at ∈
      (hist.filter (fun r => r.name = g.name)).map (fun r => r.collected_at) :=
    List.mem_map_of_mem _ (List.mem_filter.mpr ⟨hg, by simp⟩)
  obtain ⟨m, hm⟩ := sqlMax_isSome_of_mem hmem
  have hmax : max_collected_at hist g.name = some m := hm
  obtain ⟨r0, hr0, hr0c⟩ := List.mem_map.mp (sqlMax_mem hm)
  have hr0f := List.mem_filter.mp hr0
  have hr0name : r0.name = g.name := by simpa using hr0f.2
  refine ⟨⟨r0, ?_, hr0name⟩, ?_, ?_⟩
  · exact List.mem_filter.mpr ⟨hr0f.1, by
      simp only [decide_eq_true_eq]
      rw [hr0name, hmax, hr0c]⟩
  · intro r hr hrname
    have hrf := List.mem_filter.mp hr
    have hrsel : max_collected_at hist r.name = some r.collected_at := by
      simpa using hrf.2
    refine ⟨hrf.1, fun r' hr' hr'name => ?_⟩
    have : r'.collected_at ∈
        (hist.filter (fun x => x.name = r.name)).map (fun x => x.collected_at) :=
      List.mem_map_of_mem _ (List.mem_filter.mpr ⟨hr', by simp [hr'name, hrname]⟩)
    exact le_sqlMax_of_mem this hrsel
  · intro r1 h1 r2 h2 h1name h2name hlt hsel
    have hself := List.mem_filter.mp hsel
    have hsel1 : max_collected_at hist r1.name = some r1.collected_at := by
      simpa using hself.2
    have : r2.collected_at ∈
        (hist.filter (fun x => x.name = r1.name)).map (fun x => x.collected_at) :=
      List.mem_map_of_mem _ (List.mem_filter.mpr ⟨h2, by simp [h2name, h1name]⟩)
    exact absurd (le_sqlMax_of_mem this hsel1) (not_le.mpr hlt)

/-! ### C4: the registry-side Resolver selects the rows of maximal
`downloads_last_year` -/

/-- C4. The registry-side analogue of C3, except that selection is by
maximal `downloads_last_year`; the `pypi_download_stats` relation carries
no collection timestamp at all (see `PypiRow`), so no timestamp is
consulted. -/
theorem latest_pypi_selects_max (hist : List PypiRow) (g : PypiRow)
    (hg : g ∈ hist) :
    (∃ r ∈ latest_pypi hist, r.name = g.name) ∧
    (∀ r ∈ latest_pypi hist, r.name = g.name →
      r ∈ hist ∧ ∀ r' ∈ hist, r'.name = g.name →
        r'.downloads_last_year ≤ r.downloads_last_year) := by
  have hmem : g.downloads_last_year ∈
      (hist.filter (fun r => r.name = g.name)).map (fun r => r.downloads_last_year) :=
    List.mem_map_of_mem _ (List.mem_filter.mpr ⟨hg, by simp⟩)
  obtain ⟨m, hm⟩ := sqlMax_isSome_of_mem hmem
  have hmax : max_downloads_last_year hist g.name = some m := hm
  obtain ⟨r0, hr0, hr0c⟩ := List.mem_map.mp (sqlMax_mem hm)
  have hr0f := List.mem_filter.mp hr0
  have hr0name : r0.name = g.name := by simpa using hr0f.2
  refine ⟨⟨r0, ?_, hr0name⟩, ?_⟩
  · exact List.mem_filter.mpr ⟨hr0f.1, by
      simp only [decide_eq_true_eq]
      rw [hr0name, hmax, hr0c]⟩
  · intro r hr hrname
    have hrf := List.mem_filter.mp hr
    have hrsel : max_downloads_last_year hist r.name = some r.downloads_last_year := by
      simpa using hrf.2
    refine ⟨hrf.1, fun r' hr' hr'name => ?_⟩
    have : r'.downloads_last_year ∈
        (hist.filter (fun x => x.name = r.name)).map (fun x => x.downloads_last_year) :=
      List.mem_map_of_mem _ (List.mem_filter.mpr ⟨hr', by simp [hr'name, hrname]⟩)
    exact le_sqlMax_of_mem this hrsel

/-! ### Concrete rows for witnesses and counterexamples -/

/-- A concrete GitHub snapshot row with the given name, stars and
`collected_at`. -/
def gRow (n : String) (s : Int) (t : Nat) : GithubRow :=
  { name := n, github_owner := "owner", github_repository_name := "repo"
    stars := s, forks := 0, watchers := 0, open_issues := 0
    language := some "Python", size_kb := 0
    created_at := none, updated_at := none, collected_at := t
    total_contributors := none, total_commits := none
    commits_last_year := none, commits_last_month := none }

/-- A concrete registry snapshot row with the given name and trailing-year
downloads. -/
def pRow (n : String) (d : Int) : PypiRow :=
  { name := n, pypi_name := n, total_downloads_alltime := 0
    downloads_last_month := 0, downloads_last_year := d }

/-- Witness for C3 at the spec's §8 example: history
`{A: stars=5, collected_at=1}`, `{A: stars=10, collected_at=2}`. -/
theorem latest_github_selects_max_witness :
    gRow "A" 5 1 ∈ [gRow "A" 5 1, gRow "A" 10 2] ∧
    ((∃ r ∈ latest_github [gRow "A" 5 1, gRow "A" 10 2], r.name = (gRow "A" 5 1).name) ∧
    (∀ r ∈ latest_github [gRow "A" 5 1, gRow "A" 10 2], r.name = (gRow "A" 5 1).name →
      r ∈ [gRow "A" 5 1, gRow "A" 10 2] ∧
      ∀ r' ∈ [gRow "A" 5 1, gRow "A" 10 2], r'.name = (gRow "A" 5 1).name →
        r'.collected_at ≤ r.collected_at) ∧
    (∀ r1 ∈ [gRow "A" 5 1, gRow "A" 10 2], ∀ r2 ∈ [gRow "A" 5 1, gRow "A" 10 2],
      r1.name = (gRow "A" 5 1).name → r2.name = (gRow "A" 5 1).name →
      r1.collected_at < r2.collected_at →
      r1 ∉ latest_github [gRow "A" 5 1, gRow "A" 10 2])) :=
  ⟨by decide, latest_github_selects_max _ _ (by decide)⟩

/-- Witness for C4 at registry history `{A: 1000}`, `{A: 400}`. -/
theorem latest_pypi_selects_max_witness :
    pRow "A" 1000 ∈ [pRow "A" 400, pRow "A" 1000] ∧
    ((∃ r ∈ latest_pypi [pRow "A" 400, pRow "A" 1000], r.name = (pRow "A" 1000).name) ∧
    (∀ r ∈ latest_pypi [pRow "A" 400, pRow "A" 1000], r.name = (pRow "A" 1000).name →
      r ∈ [pRow "A" 400, pRow "A" 1000] ∧
      ∀ r' ∈ [pRow "A" 400, pRow "A" 1000], r'.name = (pRow "A" 1000).name →
        r'.downloads_last_year ≤ r.downloads_last_year)) :=
  ⟨by decide, latest_pypi_selects_max _ _ (by decide)⟩

/-! ### C2: uniqueness of the Resolver's output per identity -/

/-- C2 as stated is false: with two snapshot rows of the same identity
tying on the recency marker (here two `A` rows with `collected_at = 7`),
`latest_github` keeps both, so the output has two rows for identity `A`
on the GitHub side (and `latest_pypi` behaves the same way on a
`downloads_last_year` tie). -/
theorem resolver_unique_cex :
    ¬ (∀ (gh : List GithubRow) (py : List PypiRow) (n : String),
        ((latest_github gh).filter (fun r => r.name = n)).length ≤ 1 ∧
        ((latest_pypi py).filter (fun r => r.name = n)).length ≤ 1) := by
  intro h
  have := (h [gRow "A" 5 7, gRow "A" 10 7] [] "A").1
  revert this
  decide

/-- A list in which the pairwise relation `R` never holds has at most one
element. -/
theorem length_le_one_of_pairwise {α : Type} {l : List α} {R : α → α → Prop}
    (hp : l.Pairwise R) (hno : ∀ a b, a ∈ l → b ∈ l → ¬ R a b) :
    l.length ≤ 1 := by
  cases l with
  | nil => simp
  | cons a t =>
    cases t with
    | nil => simp
    | cons b t' =>
      have hab : R a b := (List.pairwise_cons.mp hp).1 b (List.mem_cons_self b t')
      exact absurd hab (hno a b (by simp) (by simp))

/-- C2 amended: provided no two snapshot rows of the same identity tie on
the recency marker (`collected_at` on the GitHub side,
`downloads_last_year` on the registry side), the Resolver's output has at
most one row per identity per source.  With ties, every tied row is kept
(see `resolver_unique_cex`). -/
theorem resolver_unique_amended (gh : List GithubRow) (py : List PypiRow) (n : String)
    (hgh : gh.Pairwise (fun a b => a.name = b.name → a.collected_at ≠ b.collected_at))
    (hpy : py.Pairwise (fun a b =>
      a.name = b.name → a.downloads_last_year ≠ b.downloads_last_year)) :
    ((latest_github gh).filter (fun r => r.name = n)).length ≤ 1 ∧
    ((latest_pypi py).filter (fun r => r.name = n)).length ≤ 1 := by
  constructor
  · refine length_le_one_of_pairwise
      (((hgh.filter _).filter _)) ?_
    intro a b ha hb hR
    have haf := List.mem_filter.mp ha
    have hbf := List.mem_filter.mp hb
    have han : a.name = n := by simpa using haf.2
    have hbn : b.name = n := by simpa using hbf.2
    have hasel : max_collected_at gh a.name = some a.collected_at := by
      simpa using (List.mem_filter.mp haf.1).2
    have hbsel : max_collected_at gh b.name = some b.collected_at := by
      simpa using (List.mem_filter.mp hbf.1).2
    have : a.collected_at = b.collected_at := by
      have := hbsel
      rw [hbn, ← han] at this
      rw [hasel] at this
      exact (Option.some_inj.mp this)
    exact hR (han.trans hbn.symm) this
  · refine length_le_one_of_pairwise
      (((hpy.filter _).filter _)) ?_
    intro a b ha hb hR
    have haf := List.mem_filter.mp ha
    have hbf := List.mem_filter.mp hb
    have han : a.name = n := by simpa using haf.2
    have hbn : b.name = n := by simpa using hbf.2
    have hasel : max_downloads_last_year py a.name = some a.downloads_last_year := by
      simpa using (List.mem_filter.mp haf.1).2
    have hbsel : max_downloads_last_year py b.name = some b.downloads_last_year := by
      simpa using (List.mem_filter.mp hbf.1).2
    have : a.downloads_last_year = b.downloads_last_year := by
      have := hbsel
      rw [hbn, ← han] at this
      rw [hasel] at this
      exact (Option.some_inj.mp this)
    exact hR (han.trans hbn.symm) this

/-- Witness for the amended C2 at a two-identity history with distinct
markers. -/
theorem resolver_unique_amended_witness :
    ([gRow "A" 5 1, gRow "A" 10 2, gRow "B" 3 1].Pairwise
      (fun a b => a.name = b.name → a.collected_at ≠ b.collected_at)) ∧
    ([pRow "A" 400, pRow "A" 1000].Pairwise (fun a b =>
      a.name = b.name → a.downloads_last_year ≠ b.downloads_last_year)) ∧
    (((latest_github [gRow "A" 5 1, gRow "A" 10 2, gRow "B" 3 1]).filter
        (fun r => r.name = "A")).length ≤ 1 ∧
      ((latest_pypi [pRow "A" 400, pRow "A" 1000]).filter
        (fun r => r.name = "A")).length ≤ 1) :=
  ⟨by decide, by decide,
    resolver_unique_amended _ _ "A" (by decide) (by decide)⟩

/-! ### C5: the Consolidator is a left outer join driven by the
GitHub side -/

theorem blockRows_name {ps : List PypiRow} {g : GithubRow} :
    ∀ r ∈ blockRows ps g, r.name = g.name := by
  intro r hr
  unfold blockRows at hr
  split at hr
  · simp only [List.mem_singleton] at hr
    rw [hr]; rfl
  · obtain ⟨p, _, hp⟩ := List.mem_map.mp hr
    rw [← hp]; rfl

/-- A list whose elements have pairwise distinct keys has at most one
element of any given key. -/
theorem filter_key_length_le_one {α : Type} {key : α → String} {l : List α}
    (hp : l.Pairwise (fun a b => key a ≠ key b)) (n : String) :
    (l.filter (fun x => key x = n)).length ≤ 1 := by
  refine length_le_one_of_pairwise (hp.filter _) ?_
  intro a b ha hb hR
  have han : key a = n := by simpa using (List.mem_filter.mp ha).2
  have hbn : key b = n := by simpa using (List.mem_filter.mp hb).2
  exact hR (han.trans hbn.symm)

theorem blockRows_length {ps : List PypiRow} (g : GithubRow)
    (hp : ps.Pairwise (fun a b => a.name ≠ b.name)) :
    (blockRows ps g).length = 1 := by
  unfold blockRows
  split
  · rfl
  · rename_i hne
    rw [List.length_map]
    have hle : (ps.filter (fun p => p.name = g.name)).length ≤ 1 :=
      filter_key_length_le_one hp g.name
    have hpos : 0 < (ps.filter (fun p => p.name = g.name)).length := by
      rcases Nat.eq_zero_or_pos (ps.filter (fun p => p.name = g.name)).length with h0 | h
      · exact absurd (List.isEmpty_iff.mpr (List.length_eq_zero.mp h0)) hne
      · exact h
    omega

theorem leftJoin_names {gs : List GithubRow} {ps : List PypiRow} :
    ∀ r ∈ leftJoin gs ps, ∃ g ∈ gs, r.name = g.name := by
  intro r hr
  obtain ⟨g, hg, hrg⟩ := List.mem_flatMap.mp hr
  exact ⟨g, hg, blockRows_name r hrg⟩

theorem leftJoin_match {gs : List GithubRow} {ps : List PypiRow} {g : GithubRow}
    {p : PypiRow} (hgmem : g ∈ gs) (hpmem : p ∈ ps) (hname : p.name = g.name) :
    selectRow g (some p) ∈ leftJoin gs ps := by
  refine List.mem_flatMap.mpr ⟨g, hgmem, ?_⟩
  have hpf : p ∈ ps.filter (fun q => q.name = g.name) :=
    List.mem_filter.mpr ⟨hpmem, by simp [hname]⟩
  unfold blockRows
  split
  · rename_i he
    rw [List.isEmpty_iff.mp he] at hpf
    cases hpf
  · exact List.mem_map_of_mem _ hpf

theorem leftJoin_nomatch {gs : List GithubRow} {ps : List PypiRow} {g : GithubRow}
    (hgmem : g ∈ gs) (hno : ∀ p ∈ ps, p.name ≠ g.name) :
    selectRow g none ∈ leftJoin gs ps := by
  refine List.mem_flatMap.mpr ⟨g, hgmem, ?_⟩
  have hnil : ps.filter (fun q => q.name = g.name) = [] := by
    rw [List.filter_eq_nil_iff]
    intro p hp
    simpa using hno p hp
  simp [blockRows, hnil]

theorem leftJoin_count {gs : List GithubRow} {ps : List PypiRow}
    (hg : gs.Pairwise (fun a b => a.name ≠ b.name))
    (hp : ps.Pairwise (fun a b => a.name ≠ b.name))
    {g : GithubRow} (hmem : g ∈ gs) :
    ((leftJoin gs ps).filter (fun r => r.name = g.name)).length = 1 := by
  induction gs with
  | nil => cases hmem
  | cons a t ih =>
    have hstep : leftJoin (a :: t) ps = blockRows ps a ++ leftJoin t ps := by
      simp [leftJoin]
    rw [hstep, List.filter_append, List.length_append]
    rcases List.mem_cons.mp hmem with rfl | hmemt
    · have hblock : (blockRows ps g).filter (fun r => r.name = g.name)
          = blockRows ps g := by
        rw [List.filter_eq_self]
        intro r hr
        simp [blockRows_name r hr]
      have htail : (leftJoin t ps).filter (fun r => r.name = g.name) = [] := by
        rw [List.filter_eq_nil_iff]
        intro r hr
        obtain ⟨g', hg', hrg'⟩ := leftJoin_names r hr
        have hne : g.name ≠ g'.name := (List.pairwise_cons.mp hg).1 g' hg'
        simp only [hrg', decide_eq_true_eq]
        exact fun h => hne h.symm
      rw [hblock, htail, blockRows_length g hp]
      rfl
    · have hblock : (blockRows ps a).filter (fun r => r.name = g.name) = [] := by
        rw [List.filter_eq_nil_iff]
        intro r hr
        have hne : a.name ≠ g.name := (List.pairwise_cons.mp hg).1 g hmemt
        simp [blockRows_name r hr, hne]
      rw [hblock, ih (List.pairwise_cons.mp hg).2 hmemt]
      rfl

/-- C5. For GitHub-side and registry-side latest mappings (lists with at
most one row per identity, expressed as pairwise-distinct names), the
join of `load_to_snowflake` is a left outer join driven by the GitHub
side: every GitHub-side identity yields exactly one output row; when a
registry row matches, both sides' fields are copied field for field;
when none matches, every registry-sourced field is NULL; and a
registry-only identity yields no output row. -/
theorem consolidator_left_outer_join (gs : List GithubRow) (ps : List PypiRow)
    (hg : gs.Pairwise (fun a b => a.name ≠ b.name))
    (hp : ps.Pairwise (fun a b => a.name ≠ b.name)) :
    (∀ g ∈ gs, ((leftJoin gs ps).filter (fun r => r.name = g.name)).length = 1) ∧
    (∀ g ∈ gs, ∀ p ∈ ps, p.name = g.name →
      ∃ r ∈ leftJoin gs ps, r.name = g.name ∧
        r.github_owner = g.github_owner ∧
        r.github_repository_name = g.github_repository_name ∧
        r.pypi_name = some p.pypi_name ∧
        r.language = g.language ∧
        r.stars = g.stars ∧ r.forks = g.forks ∧ r.watchers = g.watchers ∧
        r.open_issues = g.open_issues ∧ r.size_kb = g.size_kb ∧
        r.created_at = g.created_at ∧ r.updated_at = g.updated_at ∧
        r.total_contributors = g.total_contributors ∧
        r.total_commits = g.total_commits ∧
        r.total_downloads_alltime = some p.total_downloads_alltime ∧
        r.commits_last_year = g.commits_last_year ∧
        r.downloads_last_year = some p.downloads_last_year ∧
        r.commits_last_month = g.commits_last_month ∧
        r.downloads_last_month = some p.downloads_last_month) ∧
    (∀ g ∈ gs, (∀ p ∈ ps, p.name ≠ g.name) →
      ∃ r ∈ leftJoin gs ps, r.name = g.name ∧ r.pypi_name = none ∧
        r.total_downloads_alltime = none ∧ r.downloads_last_year = none ∧
        r.downloads_last_month = none) ∧
    (∀ p ∈ ps, (∀ g ∈ gs, g.name ≠ p.name) →
      ∀ r ∈ leftJoin gs ps, r.name ≠ p.name) := by
  refine ⟨fun g hmem => leftJoin_count hg hp hmem, ?_, ?_, ?_⟩
  · intro g hgmem p hpmem hname
    exact ⟨selectRow g (some p), leftJoin_match hgmem hpmem hname,
      rfl, rfl, rfl, rfl, rfl, rfl, rfl, rfl, rfl, rfl, rfl, rfl, rfl, rfl,
      rfl, rfl, rfl, rfl, rfl⟩
  · intro g hgmem hno
    exact ⟨selectRow g none, leftJoin_nomatch hgmem hno, rfl, rfl, rfl, rfl, rfl⟩
  · intro p hpmem hno r hr
    obtain ⟨g', hg', hrg'⟩ := leftJoin_names r hr
    rw [hrg']
    exact hno g' hg'

/-- Witness for C5 at the spec's §8 example: GitHub latest `{A}`,
registry latest `{A, B}`; `A` yields one row, `B` none. -/
theorem consolidator_left_outer_join_witness :
    ([gRow "A" 10 2].Pairwise (fun a b => a.name ≠ b.name)) ∧
    ([pRow "A" 1000, pRow "B" 50].Pairwise (fun a b => a.name ≠ b.name)) ∧
    ((leftJoin [gRow "A" 10 2] [pRow "A" 1000, pRow "B" 50]).filter
      (fun r => r.name = (gRow "A" 10 2).name)).length = 1 :=
  ⟨by decide, by decide,
    (consolidator_left_outer_join _ _ (by decide) (by decide)).1
      (gRow "A" 10 2) (by decide)⟩

/-! ### C7: the published rows are ordered by library identity -/

theorem mem_insertByName {r x : TechRow} {l : List TechRow} :
    x ∈ insertByName r l ↔ x = r ∨ x ∈ l := by
  induction l with
  | nil => simp [insertByName]
  | cons a t ih =>
    by_cases h : a.name ≤ r.name
    · simp only [insertByName, if_pos h, List.mem_cons, ih]
      tauto
    · simp only [insertByName, if_neg h, List.mem_cons]

theorem pairwise_insertByName {l : List TechRow} (r : TechRow)
    (h : l.Pairwise (fun a b => a.name ≤ b.name)) :
    (insertByName r l).Pairwise (fun a b => a.name ≤ b.name) := by
  induction l with
  | nil => simp [insertByName]
  | cons a t ih =>
    obtain ⟨ha, ht⟩ := List.pairwise_cons.mp h
    by_cases hle : a.name ≤ r.name
    · rw [insertByName, if_pos hle]
      refine List.pairwise_cons.mpr ⟨?_, ih ht⟩
      intro y hy
      rcases mem_insertByName.mp hy with rfl | hy'
      · exact hle
      · exact ha y hy'
    · rw [insertByName, if_neg hle]
      refine List.pairwise_cons.mpr ⟨?_, h⟩
      intro y hy
      have hr : r.name ≤ a.name := le_of_lt (lt_of_not_le hle)
      rcases List.mem_cons.mp hy with rfl | hy'
      · exact hr
      · exact le_trans hr (ha y hy')

theorem pairwise_orderByName (l : List TechRow) :
    (orderByName l).Pairwise (fun a b => a.name ≤ b.name) := by
  induction l with
  | nil => simp [orderByName]
  | cons a t ih => exact pairwise_insertByName a ih

/-- C7. The Consolidator's output (the SELECT with its `ORDER BY g.name`)
is ordered by library identity ascending: for any two consecutive emitted
rows, the first row's identity is ≤ the second's. -/
theorem consolidate_sorted_by_name (gh : List GithubRow) (py : List PypiRow) :
    (consolidate gh py).Chain' (fun a b => a.name ≤ b.name) :=
  (pairwise_orderByName _).chain'

/-! ### C1, C6: the Publisher's failure path and idempotence -/

/-- On a successful run the publisher durably writes exactly the
consolidated rows, leaving the snapshot stores untouched. -/
theorem load_to_snowflake_noFault (db : DB) :
    load_to_snowflake Fault.noFault db
      = ({ db with published := consolidate db.github db.pypi }, true) := rfl

/-- C1 fails on the code.  Evaluated at a concrete state — a previously
published table holding one row for library `B`, a snapshot store with
one `A` row, and the INSERT raising before any row lands — the failed
run leaves the published table empty, not equal to the table observed
before the run: the TRUNCATE has auto-committed (the connector's session
AUTOCOMMIT defaults to on and TRUNCATE is implicitly-committing DDL), so
the `conn.rollback()` of the except block cannot restore the cleared
rows.  The spec's atomicity requirement is the stated intent and the
code violates it. -/
theorem publisher_not_atomic :
    (load_to_snowflake (Fault.failInsertAfter 0)
        ⟨[gRow "A" 10 2], [], [selectRow (gRow "B" 3 1) none]⟩).1.published = [] ∧
    (load_to_snowflake (Fault.failInsertAfter 0)
        ⟨[gRow "A" 10 2], [], [selectRow (gRow "B" 3 1) none]⟩).1.published
      ≠ [selectRow (gRow "B" 3 1) none] ∧
    (load_to_snowflake (Fault.failInsertAfter 0)
        ⟨[gRow "A" 10 2], [], [selectRow (gRow "B" 3 1) none]⟩).2 = false := by
  decide

/-- C6. Running resolve→join→publish twice against unchanged source
snapshots leaves the published table identical, row for row and column
for column, to the table produced by the first run (and both runs
succeed). -/
theorem publisher_idempotent (db : DB) :
    (load_to_snowflake Fault.noFault (load_to_snowflake Fault.noFault db).1).1.published
      = (load_to_snowflake Fault.noFault db).1.published ∧
    (load_to_snowflake Fault.noFault db).2 = true ∧
    (load_to_snowflake Fault.noFault (load_to_snowflake Fault.noFault db).1).2 = true := by
  rw [load_to_snowflake_noFault db]
  rw [load_to_snowflake_noFault]
  exact ⟨rfl, rfl, rfl⟩

/-! ### C8, C9: failure propagation and the orchestrator's exit code -/

/-- Any injected failure makes the publisher re-raise to its caller. -/
theorem load_to_snowflake_fail (f : Fault) (db : DB) (hf : f ≠ Fault.noFault) :
    (load_to_snowflake f db).2 = false := by
  cases f with
  | noFault => exact absurd rfl hf
  | failTruncate => rfl
  | failInsertAfter k => rfl

/-- The publisher succeeds exactly when no failure is injected. -/
theorem load_to_snowflake_success_iff (f : Fault) (db : DB) :
    (load_to_snowflake f db).2 = true ↔ f = Fault.noFault := by
  cases f with
  | noFault => simp [load_to_snowflake_noFault]
  | failTruncate => simp [load_to_snowflake]
  | failInsertAfter k => simp [load_to_snowflake]

/-- C8. Whenever the publish step fails (any injected fault), the
Publisher invokes its rollback-then-re-raise except block exactly once —
the error surfaces to the caller with no retry — the run is recorded as
failed, and the process exits 1; and in general the process exits 0
exactly when the two ingestion phases and the publish phase all
succeeded, so 0 is possible only on full success. -/
theorem publish_failure_exits_nonzero (gh : PhaseResult (List GithubRow))
    (py : PhaseResult (List PypiRow)) (f : Fault) (db : DB)
    (hf : f ≠ Fault.noFault) :
    (load_to_snowflake f (runPypiPhase py (runGithubPhase gh db).1).1).2 = false ∧
    (orchestrate gh py f db).2 = 1 ∧
    (∀ gh' py' f' db', (orchestrate gh' py' f' db').2 = 0 ↔
      ((runGithubPhase gh' db').2 = true ∧
        (runPypiPhase py' (runGithubPhase gh' db').1).2 = true ∧
        f' = Fault.noFault)) := by
  have hexit : ∀ gh' py' f' db', (orchestrate gh' py' f' db').2 = 0 ↔
      ((runGithubPhase gh' db').2 = true ∧
        (runPypiPhase py' (runGithubPhase gh' db').1).2 = true ∧
        f' = Fault.noFault) := by
    intro gh' py' f' db'
    show (if _ && _ && _ then 0 else 1) = 0 ↔ _
    rcases hand : (runGithubPhase gh' db').2 &&
        (runPypiPhase py' (runGithubPhase gh' db').1).2 &&
        (load_to_snowflake f' (runPypiPhase py' (runGithubPhase gh' db').1).1).2
      with _ | _
    · refine ⟨fun h => absurd h (by decide), fun ⟨h1, h2, h3⟩ => ?_⟩
      simp only [Bool.and_eq_false_iff] at hand
      rcases hand with (h | h) | h
      · exact absurd h1 (by simp [h])
      · exact absurd h2 (by simp [h])
      · rw [(load_to_snowflake_success_iff f' _).mpr h3] at h
        cases h
    · simp only [Bool.and_eq_true] at hand
      exact ⟨fun _ => ⟨hand.1.1, hand.1.2,
        (load_to_snowflake_success_iff f' _).mp hand.2⟩, fun _ => by decide⟩
  have hfail := load_to_snowflake_fail f (runPypiPhase py (runGithubPhase gh db).1).1 hf
  refine ⟨hfail, ?_, hexit⟩
  show (if _ && _ && _ then 0 else 1) = 1
  rw [hfail]
  simp

/-- Witness for C8 with a failure injected at the first inserted row. -/
theorem publish_failure_exits_nonzero_witness :
    Fault.failInsertAfter 0 ≠ Fault.noFault ∧
    ((load_to_snowflake (Fault.failInsertAfter 0)
        (runPypiPhase (Except.ok [pRow "A" 1000])
          (runGithubPhase (Except.ok [gRow "A" 10 2]) ⟨[], [], []⟩).1).1).2 = false ∧
      (orchestrate (Except.ok [gRow "A" 10 2]) (Except.ok [pRow "A" 1000])
        (Fault.failInsertAfter 0) ⟨[], [], []⟩).2 = 1 ∧
      (∀ gh' py' f' db', (orchestrate gh' py' f' db').2 = 0 ↔
        ((runGithubPhase gh' db').2 = true ∧
          (runPypiPhase py' (runGithubPhase gh' db').1).2 = true ∧
          f' = Fault.noFault))) :=
  ⟨by decide,
    publish_failure_exits_nonzero (Except.ok [gRow "A" 10 2])
      (Except.ok [pRow "A" 1000]) (Fault.failInsertAfter 0) ⟨[], [], []⟩ (by decide)⟩

/-- C9. The orchestrator does not short-circuit: the publish phase runs
even when an ingestion phase raised (with no fault injected in the
publisher, the published table is rebuilt from the post-ingestion
snapshot stores whatever the ingestion outcomes), and the exit code is 0
exactly when all three phases succeeded. -/
theorem orchestrator_no_short_circuit (gh : PhaseResult (List GithubRow))
    (py : PhaseResult (List PypiRow)) (f : Fault) (db : DB) :
    ((orchestrate gh py Fault.noFault db).1.published
      = consolidate (runPypiPhase py (runGithubPhase gh db).1).1.github
          (runPypiPhase py (runGithubPhase gh db).1).1.pypi) ∧
    ((orchestrate gh py f db).2 = 0 ↔
      ((runGithubPhase gh db).2 = true ∧
        (runPypiPhase py (runGithubPhase gh db).1).2 = true ∧
        (load_to_snowflake f (runPypiPhase py (runGithubPhase gh db).1).1).2 = true)) := by
  constructor
  · show (load_to_snowflake Fault.noFault _).1.published = _
    rw [load_to_snowflake_noFault]
  · show (if _ && _ && _ then 0 else 1) = 0 ↔ _
    rcases hand : (runGithubPhase gh db).2 &&
        (runPypiPhase py (runGithubPhase gh db).1).2 &&
        (load_to_snowflake f (runPypiPhase py (runGithubPhase gh db).1).1).2
      with _ | _
    · refine ⟨fun h => absurd h (by decide), fun ⟨h1, h2, h3⟩ => ?_⟩
      simp only [Bool.and_eq_false_iff] at hand
      rcases hand with (h | h) | h
      · exact absurd h1 (by simp [h])
      · exact absurd h2 (by simp [h])
      · exact absurd h3 (by simp [h])
    · simp only [Bool.and_eq_true] at hand
      exact ⟨fun _ => ⟨hand.1.1, hand.1.2, hand.2⟩, fun _ => by decide⟩

/-! ### C10: a non-200 repository response omits the library silently -/

/-- C10. When the initial repository-metadata request for a library
returns a non-200 status, `get_repo_metrics` returns `None`, and the
batch collected by the ingestion run is exactly the batch collected
without that library — no row is written for it — while the run itself
still completes (the collection loop is total and the remaining
libraries are processed). -/
theorem non200_library_omitted (lib : Library) (env : FetchEnv)
    (hstatus : env.repoResp.status_code ≠ 200) :
    get_repo_metrics lib env = none ∧
    (∀ pre post : List (Library × FetchEnv),
      githubEtlBatch (pre ++ (lib, env) :: post) = githubEtlBatch (pre ++ post)) := by
  have hnone : get_repo_metrics lib env = none := by
    unfold get_repo_metrics
    rw [if_pos hstatus]
  refine ⟨hnone, fun pre post => ?_⟩
  unfold githubEtlBatch
  rw [List.filterMap_append, List.filterMap_append, List.filterMap_cons, hnone]

/-- Witness for C10: a 404 on the first library drops it from the batch
while the second library is still collected. -/
theorem non200_library_omitted_witness :
    (⟨⟨404, 1, 1, 1, 1, none, 1, none, none⟩, ⟨200, []⟩, ⟨200, []⟩, 5⟩ :
        FetchEnv).repoResp.status_code ≠ 200 ∧
    (get_repo_metrics ⟨"A", "o", "r"⟩
        ⟨⟨404, 1, 1, 1, 1, none, 1, none, none⟩, ⟨200, []⟩, ⟨200, []⟩, 5⟩ = none ∧
      (∀ pre post : List (Library × FetchEnv),
        githubEtlBatch (pre ++ (⟨"A", "o", "r"⟩,
            ⟨⟨404, 1, 1, 1, 1, none, 1, none, none⟩, ⟨200, []⟩, ⟨200, []⟩, 5⟩) :: post)
          = githubEtlBatch (pre ++ post))) :=
  ⟨by decide,
    non200_library_omitted ⟨"A", "o", "r"⟩
      ⟨⟨404, 1, 1, 1, 1, none, 1, none, none⟩, ⟨200, []⟩, ⟨200, []⟩, 5⟩ (by decide)⟩

end ETL
